import Mathlib

/-!
Verification of the TSC tuber-segmentation pipeline (Python sources under
`scripts/`) against its natural-language specification.  The Python code is
shallowly embedded: every definition below mirrors a function of the source
(`run_pipeline.py`, `pipeline_utils.py`, `1_skull_strip.py`, `2_combine_t2.py`,
`4_segment_tubers.py`), with the filesystem, subprocess results and clocks
passed in as explicit data.
-/

namespace TSC

/-! ## Filesystem model

A directory entry as seen by `Path.iterdir()`: its name, whether it is a
directory, and (when it is a directory) the names of the entries inside it.
A directory that may not exist is an `Option (List Entry)`. -/

structure Entry where
  name : String
  isDir : Bool
  contents : List String
deriving DecidableEq, Repr

/-! ## Python string primitives

The scripts use `str.startswith`, `str.endswith` and `sorted` on strings.
They are modelled at character level (Python compares strings by code
point), which keeps every definition evaluable. -/

/-- Whether the first character list is an initial segment of the second. -/
def startsWithSeq : List Char → List Char → Bool
  | [], _ => true
  | _ :: _, [] => false
  | p :: ps, c :: cs => p == c && startsWithSeq ps cs

/-- Python `s.startswith(pre)`. -/
def pyStartsWith (s pre : String) : Bool :=
  startsWithSeq pre.data s.data

/-- Python `s.endswith(suf)`. -/
def pyEndsWith (s suf : String) : Bool :=
  startsWithSeq suf.data.reverse s.data.reverse

/-- Code-point lexicographic comparison, Python's string order. -/
def charListLe : List Char → List Char → Bool
  | [], _ => true
  | _ :: _, [] => false
  | a :: as, b :: bs => if a == b then charListLe as bs else decide (a.toNat < b.toNat)

/-- Python `a <= b` on strings. -/
def pyLe (a b : String) : Bool :=
  charListLe a.data b.data

/-! ## `run_pipeline.PipelineStep.should_skip`

Source (`run_pipeline.py` lines 49-74):
`if force or self.number == 0: return False`;
`if not self.output_dir.exists(): return False`;
`subdirs = [d for d in self.output_dir.iterdir() if d.is_dir()]`;
`return len(subdirs) > 0 and any(list(subdir.iterdir()) for subdir in subdirs)`. -/

def should_skip (number : Nat) (force : Bool) (outputDir : Option (List Entry)) : Bool :=
  if force || number == 0 then false
  else
    match outputDir with
    | none => false
    | some entries =>
      let subdirs := entries.filter (·.isDir)
      decide (subdirs.length > 0) && subdirs.any (fun d => !d.contents.isEmpty)

/-! ## `pipeline_utils.discover_subjects`

Source (`pipeline_utils.py` lines 433-465): errors when the input directory
does not exist; collects `sorted([d.name for d in input_dir.iterdir() if
d.is_dir() and not d.name.startswith(".")])`; errors when the list is empty. -/

def discover_subjects (inputDir : Option (List Entry)) : Except String (List String) :=
  match inputDir with
  | none => .error "Input directory not found"
  | some entries =>
    let subjects :=
      List.insertionSort (fun a b => pyLe a b = true)
        ((entries.filter (fun d => d.isDir && !pyStartsWith d.name ".")).map (·.name))
    if subjects.isEmpty then .error "No subject directories found"
    else .ok subjects

/-! ## `pipeline_utils.DockerManager._detect_container_runtime`

Source (`pipeline_utils.py` lines 143-195): tries docker, then apptainer,
then singularity; an engine is chosen when `shutil.which` finds its CLI and
its probe subprocess (`docker ps` / `--version`) succeeds; a CLI whose probe
fails falls through; no engine at all raises `RuntimeError`. -/

inductive Runtime
  | docker
  | apptainer
  | singularity
deriving DecidableEq, Repr

def runtimeName : Runtime → String
  | .docker => "docker"
  | .apptainer => "apptainer"
  | .singularity => "singularity"

/-- Host state the detection code observes: whether each engine's CLI is on
the path (`shutil.which`) and whether its probe command exits zero. -/
structure HostEnv where
  onPath : Runtime → Bool
  probeOk : Runtime → Bool

def detectRuntimeErrorMsg : String :=
  "No container runtime found. Need Docker, Apptainer, or Singularity."

def detect_container_runtime (env : HostEnv) : Except String Runtime :=
  if env.onPath .docker && env.probeOk .docker then .ok .docker
  else if env.onPath .apptainer && env.probeOk .apptainer then .ok .apptainer
  else if env.onPath .singularity && env.probeOk .singularity then .ok .singularity
  else .error detectRuntimeErrorMsg

/-- The fixed preference order in which `_detect_container_runtime` examines
the engines. -/
def runtimePreferenceOrder : List Runtime := [.docker, .apptainer, .singularity]

/-- An engine passes detection when its CLI is on the path and its probe
command succeeds. -/
def enginePasses (env : HostEnv) (r : Runtime) : Bool :=
  env.onPath r && env.probeOk r

/-! ## `pipeline_utils.DockerManager.run_container` — command construction

Source (lines 261-300).  For docker: `["docker", "run", "--rm"]`, then
`["--gpus", "all"]` when GPU is requested, then `["-v", f"{host}:{container}"]`
per volume, then `["-w", workdir]` when truthy, then the bare image.  For
apptainer/singularity: `[runtime, "run"]`, `["--nv"]` on GPU,
`["--writable-tmpfs"]` on scratch, `["--pwd", workdir]` when truthy, then
`["--bind", f"{host}:{container_path.replace(':ro', '')}"]` per volume, then
`"docker://" + image`. -/

/-- Python `s.replace(":ro", "")` at character level: removes every
left-to-right non-overlapping occurrence of `:ro`. -/
def removeRoAll : List Char → List Char
  | ':' :: 'r' :: 'o' :: rest => removeRoAll rest
  | c :: rest => c :: removeRoAll rest
  | [] => []

/-- Whether `:ro` occurs anywhere in the character list. -/
def hasRoSeq : List Char → Bool
  | ':' :: 'r' :: 'o' :: _ => true
  | _ :: rest => hasRoSeq rest
  | [] => false

def pyReplaceRo (s : String) : String :=
  ⟨removeRoAll s.data⟩

/-- `if workdir: cmd.extend([flag, workdir])` — Python truthiness: `None` and
the empty string add nothing. -/
def srcWorkdirArgs (flag : String) : Option String → List String
  | some w => if w.data.isEmpty then [] else [flag, w]
  | none => []

/-- The arguments of `run_container` that shape the command: image, the
volumes dict in insertion order (host path, container path string), the GPU
flag, the optional working directory, the scratch flag. -/
structure InvocationRequest where
  image : String
  volumes : List (String × String)
  use_gpu : Bool
  workdir : Option String
  scratch : Bool

def run_container_cmd (runtime : Runtime) (req : InvocationRequest) : List String :=
  match runtime with
  | .docker =>
    ["docker", "run", "--rm"]
      ++ (if req.use_gpu then ["--gpus", "all"] else [])
      ++ req.volumes.flatMap (fun v => ["-v", v.1 ++ ":" ++ v.2])
      ++ srcWorkdirArgs "-w" req.workdir
      ++ [req.image]
  | rt =>
    [runtimeName rt, "run"]
      ++ (if req.use_gpu then ["--nv"] else [])
      ++ (if req.scratch then ["--writable-tmpfs"] else [])
      ++ srcWorkdirArgs "--pwd" req.workdir
      ++ req.volumes.flatMap (fun v => ["--bind", v.1 ++ ":" ++ pyReplaceRo v.2])
      ++ ["docker://" ++ req.image]

/-- Spec §3 `VolumeBinding`: host path, syntax-free container path, read-only
flag.  The raw request string the callers build appends `:ro` when the
binding is read-only. -/
structure VolumeBinding where
  host : String
  container : String
  readOnly : Bool

def rawVolume (b : VolumeBinding) : String × String :=
  (b.host, b.container ++ (if b.readOnly then ":ro" else ""))

/-- Spec-side working-directory rendering: an explicit flag-value pair when a
working directory is requested. -/
def specWorkdirArgs (flag : String) : Option String → List String
  | some w => [flag, w]
  | none => []

/-- Modelled from the spec: the §4.1 invocation-translation table.  Daemon
engine: auto-remove flag, all-GPU flag on GPU, each binding as a
host:container pair keeping the read-only suffix, the working-directory flag
after the mounts, the bare image reference.  On-demand engines:
NVIDIA-passthrough flag on GPU, writable-overlay-in-memory flag on scratch,
the working-directory flag before the bind flags, each binding with the
read-only suffix stripped, the image prefixed with the registry-scheme
marker. -/
def specTranslatedCmd (rt : Runtime) (image : String) (bindings : List VolumeBinding)
    (gpu : Bool) (workdir : Option String) (scratch : Bool) : List String :=
  match rt with
  | .docker =>
    ["docker", "run"] ++ ["--rm"]
      ++ (if gpu then ["--gpus", "all"] else [])
      ++ bindings.flatMap (fun b =>
          ["-v", b.host ++ ":" ++ b.container ++ (if b.readOnly then ":ro" else "")])
      ++ specWorkdirArgs "-w" workdir
      ++ [image]
  | rt =>
    [runtimeName rt, "run"]
      ++ (if gpu then ["--nv"] else [])
      ++ (if scratch then ["--writable-tmpfs"] else [])
      ++ specWorkdirArgs "--pwd" workdir
      ++ bindings.flatMap (fun b => ["--bind", b.host ++ ":" ++ b.container])
      ++ ["docker://" ++ image]

/-! ## Stage fan-out over work units

The main loop shared by the stage scripts (`1_skull_strip.py` lines 184-206,
`4_segment_tubers.py` lines 246-268): each subject is processed in turn; a
success increments `success_count`, a failure appends the subject to
`failed_subjects`. -/

structure StageRunStats where
  successCount : Nat
  failedSubjects : List String
deriving DecidableEq, Repr

def runStageUnits (subjects : List String) (unitSucceeds : String → Bool) : StageRunStats :=
  subjects.foldl
    (fun st s =>
      if unitSucceeds s then { st with successCount := st.successCount + 1 }
      else { st with failedSubjects := st.failedSubjects ++ [s] })
    ⟨0, []⟩

/-- `sys.exit(1 if failed_subjects else 0)` — the exit code of a stage script
(`1_skull_strip.py` line 237, `2_combine_t2.py` line 314,
`3_register_to_mni.py` line 241, `4_segment_tubers.py` line 310). -/
def stageExitCode (st : StageRunStats) : Nat :=
  if st.failedSubjects.isEmpty then 0 else 1

/-! ## Orchestrator (`run_pipeline.main`)

`main` iterates over the five steps in order, skipping numbers below
`--start-from`; `run_step` returns true when the step is skipped or its
subprocess exits zero, false when the script is missing or the subprocess
exits non-zero; a false return triggers `sys.exit(1)` with no further step
evaluated; completing the loop triggers `sys.exit(0)`; a `KeyboardInterrupt`
escaping the loop triggers `sys.exit(130)`. -/

inductive UnitRun
  | ok
  | fail
  | interrupt
deriving DecidableEq, Repr

inductive StepAction
  | skipped
  | succeeded
  | failed
  | interrupted
deriving DecidableEq, Repr

/-- What the orchestrator's environment determines per step number: the
force flag, each step's output-directory state (for `should_skip`), whether
the step script file exists, and the step subprocess's result when run. -/
structure OrchEnv where
  force : Bool
  outputFs : Nat → Option (List Entry)
  scriptOk : Nat → Bool
  runResult : Nat → UnitRun

/-- The outcome of `run_step` for one step, as observed by `main`'s loop. -/
def stepAction (env : OrchEnv) (n : Nat) : StepAction :=
  if should_skip n env.force (env.outputFs n) then .skipped
  else if !env.scriptOk n then .failed
  else
    match env.runResult n with
    | .ok => .succeeded
    | .fail => .failed
    | .interrupt => .interrupted

/-- `main`'s loop over the (filtered) step numbers: returns the list of steps
evaluated, in order, and the process exit code. -/
def orchLoop (env : OrchEnv) : List Nat → List Nat × Nat
  | [] => ([], 0)
  | n :: rest =>
    match stepAction env n with
    | .skipped => let r := orchLoop env rest; (n :: r.1, r.2)
    | .succeeded => let r := orchLoop env rest; (n :: r.1, r.2)
    | .failed => ([n], 1)
    | .interrupted => ([n], 130)

/-- The five pipeline step numbers of `run_pipeline.main`. -/
def pipelineStepNumbers : List Nat := [0, 1, 2, 3, 4]

/-- `main`: steps with `number < start_from` are skipped by `continue` before
evaluation; the rest run through the loop. -/
def orchestrate (env : OrchEnv) (startFrom : Nat) : List Nat × Nat :=
  orchLoop env (pipelineStepNumbers.filter (fun n => !decide (n < startFrom)))

/-- A step counts as advancing the pipeline when it was skipped or succeeded. -/
def stepAdvances (env : OrchEnv) (n : Nat) : Bool :=
  stepAction env n == .skipped || stepAction env n == .succeeded

/-! ## `pipeline_utils.Timer` and recorded durations

`Timer.elapsed` (lines 523-541) turns the whole-second wall-clock delta
between `start()` and `stop()` into an `(hours, minutes, seconds)` triple:
`hours = total // 3600`, `minutes = (total % 3600) // 60`,
`seconds = total % 60`. -/

def timerElapsed (totalSeconds : Nat) : Nat × Nat × Nat :=
  (totalSeconds / 3600, (totalSeconds % 3600) / 60, totalSeconds % 60)

/-- `1_skull_strip.process_subject` line 103:
`duration_sec = timer.elapsed()[1] * 60 + timer.elapsed()[2]`. -/
def skullStripDurationSec (totalSeconds : Nat) : Nat :=
  (timerElapsed totalSeconds).2.1 * 60 + (timerElapsed totalSeconds).2.2

/-- `4_segment_tubers.process_subject` lines 106-107 (same computation in
`2_combine_t2.run_t2_combination` lines 133-134):
`duration_sec = hours * 3600 + minutes * 60 + seconds`. -/
def segmentDurationSec (totalSeconds : Nat) : Nat :=
  (timerElapsed totalSeconds).1 * 3600 + (timerElapsed totalSeconds).2.1 * 60 +
    (timerElapsed totalSeconds).2.2

/-! ## `4_segment_tubers.aggregate_volume_results`

Source (lines 130-168): collects `results/*/volume_results.txt`; with none it
warns and returns; otherwise writes a fixed header line and then, for each
artifact in sorted path order, every line that does not start with
`Subject_ID`.  An artifact is modelled as (unit path, file lines); the
written report is the returned line list, `none` standing for the
warning-and-return path. -/

def volumeResultsHeader : String :=
  "Subject_ID\tT1_Volume_mm3\tT2_Volume_mm3\tFLAIR_Volume_mm3\tTotal_Volume_mm3\tGenerated_Timestamp"

/-- The aggregation loop body: lines of each artifact in order, with every
line starting with `Subject_ID` dropped. -/
def aggregateLines (files : List (String × List String)) : List String :=
  match files with
  | [] => []
  | f :: rest =>
    f.2.filter (fun line => !pyStartsWith line "Subject_ID") ++ aggregateLines rest

def aggregate_volume_results (artifacts : List (String × List String)) :
    Option (List String) :=
  if artifacts.isEmpty then none
  else
    some (volumeResultsHeader ::
      aggregateLines (List.insertionSort (fun a b => pyLe a.1 b.1 = true) artifacts))

/-- Modelled from the spec: the fail-fast contract of §4.3/§6 — the steps up
to and including the first non-advancing one are evaluated and none after it,
with exit code 0 when every step advances, 1 when the halting step failed,
and 130 when it was interrupted. -/
def specFailFastRun (env : OrchEnv) (l : List Nat) : List Nat × Nat :=
  match l.dropWhile (stepAdvances env) with
  | [] => (l, 0)
  | n :: _ =>
    (l.takeWhile (stepAdvances env) ++ [n],
     if stepAction env n = .failed then 1 else 130)

/-! ## `pipeline_utils.FileValidator` (the subset stage 2 uses)

`is_nifti_file`: the name ends in `.nii` or `.nii.gz`.  `get_sequence_type`:
first of the `_T1_`, `_T2_`, `_FLAIR_` regex patterns that matches
(`re.search` is substring containment for these literal patterns).
`count_sequences` counts NIfTI files per type, skipping non-files.
`find_nifti_files` returns the sorted NIfTI file names. -/

def is_nifti_file (name : String) : Bool :=
  pyEndsWith name ".nii" || pyEndsWith name ".nii.gz"

/-- Substring containment of a character pattern. -/
def containsSeq (pat : List Char) : List Char → Bool
  | [] => startsWithSeq pat []
  | c :: rest => startsWithSeq pat (c :: rest) || containsSeq pat rest

def get_sequence_type (filename : String) : Option String :=
  if containsSeq "_T1_".data filename.data then some "T1"
  else if containsSeq "_T2_".data filename.data then some "T2"
  else if containsSeq "_FLAIR_".data filename.data then some "FLAIR"
  else none

structure SeqCounts where
  t1 : Nat
  t2 : Nat
  flair : Nat
deriving DecidableEq, Repr

def count_sequences (dir : Option (List Entry)) : SeqCounts :=
  match dir with
  | none => ⟨0, 0, 0⟩
  | some entries =>
    entries.foldl
      (fun counts e =>
        if e.isDir || !is_nifti_file e.name then counts
        else
          match get_sequence_type e.name with
          | some "T1" => { counts with t1 := counts.t1 + 1 }
          | some "T2" => { counts with t2 := counts.t2 + 1 }
          | some "FLAIR" => { counts with flair := counts.flair + 1 }
          | _ => counts)
      ⟨0, 0, 0⟩

def find_nifti_files (dir : Option (List Entry)) : List String :=
  match dir with
  | none => []
  | some entries =>
    List.insertionSort (fun a b => pyLe a b = true)
      ((entries.filter (fun e => !e.isDir && is_nifti_file e.name)).map (·.name))

/-! ## Stage 2 (`2_combine_t2.py`)

`needs_t2_combination` (lines 48-59): more than one T2 file.
`main` (lines 201-276): analyses every subject first, pulls the image only
when some subject needs combination, then runs the copy loop over
`subjects_for_copy` and afterwards the combination loop over
`subjects_needing_combination`.  `copy_subject_files` (lines 62-86) succeeds
iff it copied at least one NIfTI file, with no container involved. -/

def needs_t2_combination (inputDir : Option (List Entry)) : Bool :=
  decide ((count_sequences inputDir).t2 > 1)

inductive Stage2Ev
  | analyze (subject : String) (needsCombine : Bool)
  | pullImage
  | copyUnit (subject : String)
  | invokeContainer (subject : String)
deriving DecidableEq, Repr

/-- The order in which `2_combine_t2.main` processes work units: the
direct-copy loop runs first, then the combination loop, each in `subjects`
order. -/
def combineT2Order (subjects : List String) (inputFs : String → Option (List Entry)) :
    List String :=
  subjects.filter (fun s => !needs_t2_combination (inputFs s))
    ++ subjects.filter (fun s => needs_t2_combination (inputFs s))

/-- The observable event sequence of `2_combine_t2.main`: the analysis loop
over every subject, the conditional image pull, the copy loop, the
combination loop. -/
def combineT2Trace (subjects : List String) (inputFs : String → Option (List Entry)) :
    List Stage2Ev :=
  (subjects.map (fun s => .analyze s (needs_t2_combination (inputFs s))))
    ++ (if (subjects.filter (fun s => needs_t2_combination (inputFs s))).isEmpty
        then [] else [.pullImage])
    ++ (subjects.filter (fun s => !needs_t2_combination (inputFs s))).map .copyUnit
    ++ (subjects.filter (fun s => needs_t2_combination (inputFs s))).map .invokeContainer

/-- Per-unit success in stage 2: a combination unit's success is its
container run's outcome; a copy unit succeeds iff `copy_subject_files`
copied at least one NIfTI file. -/
def combineT2UnitSuccess (inputFs : String → Option (List Entry))
    (containerOk : String → Bool) (s : String) : Bool :=
  if needs_t2_combination (inputFs s) then containerOk s
  else decide ((find_nifti_files (inputFs s)).length > 0)

/-- A concrete stage-2 input state: `caseA` has two T2 files (needs
combination), `caseB` has one (direct copy). -/
def sampleStage2Fs : String → Option (List Entry) := fun s =>
  if s = "caseA" then
    some [⟨"caseA_T2_axial.nii", false, []⟩, ⟨"caseA_T2_coronal.nii", false, []⟩]
  else some [⟨"caseB_T2_axial.nii", false, []⟩]

end TSC

/-! ## Theorems -/

namespace TSC

/-- The non-empty-subdirectory check of `should_skip` holds iff some entry is
a directory with contents. -/
lemma skipContentCheck_iff (entries : List Entry) :
    (decide (0 < (entries.filter (·.isDir)).length) &&
      (entries.filter (·.isDir)).any (fun d => !d.contents.isEmpty)) = true ↔
    ∃ e ∈ entries, e.isDir = true ∧ e.contents ≠ [] := by
  simp only [Bool.and_eq_true, decide_eq_true_eq, List.any_eq_true, List.mem_filter]
  constructor
  · rintro ⟨-, d, ⟨hd, hdir⟩, hne⟩
    refine ⟨d, hd, hdir, ?_⟩
    simpa [List.isEmpty_iff] using hne
  · rintro ⟨e, he, hdir, hne⟩
    refine ⟨?_, e, ⟨he, hdir⟩, by simpa [List.isEmpty_iff] using hne⟩
    exact List.length_pos.mpr (List.ne_nil_of_mem (List.mem_filter.mpr ⟨he, hdir⟩))

/-- C2: the orchestrator skips a stage iff force is false, the stage number is
positive, and the stage's output directory exists and contains at least one
non-empty subdirectory; stage 0 is never skipped, and a directory holding only
empty subdirectories or only loose files is not skip-eligible. -/
theorem should_skip_iff (number : Nat) (force : Bool) (outputDir : Option (List Entry)) :
    should_skip number force outputDir = true ↔
      force = false ∧ 0 < number ∧
        ∃ entries, outputDir = some entries ∧
          ∃ e ∈ entries, e.isDir = true ∧ e.contents ≠ [] := by
  rcases outputDir with _ | entries
  · simp [should_skip, ite_self]
  · cases force with
    | true => simp [should_skip]
    | false =>
      cases number with
      | zero => simp [should_skip]
      | succ n =>
        have hcond : (false || ((n + 1 : Nat) == 0)) = false := by simp
        simp only [should_skip, hcond, Bool.false_eq_true, if_false, Option.some.injEq]
        rw [skipContentCheck_iff]
        constructor
        · intro h
          exact ⟨by trivial, by omega, entries, rfl, h⟩
        · rintro ⟨-, -, entries', heq, h⟩
          cases heq
          exact h

/-- C4: runtime detection returns the first engine, in the fixed preference
order docker, apptainer, singularity, whose CLI is on the path and whose probe
succeeds; engines whose probe fails are skipped, and when no engine passes the
result is the fatal error, never a degraded value. -/
theorem detect_container_runtime_eq_first_passing (env : HostEnv) :
    detect_container_runtime env =
      match runtimePreferenceOrder.find? (enginePasses env) with
      | some r => .ok r
      | none => .error detectRuntimeErrorMsg := by
  unfold detect_container_runtime runtimePreferenceOrder enginePasses
  cases hd : env.onPath .docker && env.probeOk .docker with
  | true => simp [List.find?, hd]
  | false =>
    cases ha : env.onPath .apptainer && env.probeOk .apptainer with
    | true => simp [List.find?, hd, ha]
    | false =>
      cases hs : env.onPath .singularity && env.probeOk .singularity with
      | true => simp [List.find?, hd, ha, hs]
      | false => simp [List.find?, hd, ha, hs]

/-- C10: discovery never returns a hidden (dot-prefixed) directory name, and
an input root whose subdirectories are all hidden raises the same no-subjects
fatal error as an empty one. -/
theorem discover_subjects_skips_hidden (inputDir : Option (List Entry))
    (subjects : List String) (entries : List Entry) :
    (discover_subjects inputDir = .ok subjects →
      ∀ s ∈ subjects, pyStartsWith s "." = false) ∧
    ((∀ e ∈ entries, e.isDir = true → pyStartsWith e.name "." = true) →
      discover_subjects (some entries) = .error "No subject directories found" ∧
      discover_subjects (some []) = .error "No subject directories found") := by
  constructor
  · intro h s hs
    rcases inputDir with _ | es
    · exact absurd h (by simp [discover_subjects])
    · rw [discover_subjects] at h
      split at h
      · exact absurd h (by simp)
      · have hsubj :
            subjects = List.insertionSort (fun a b => pyLe a b = true)
              ((es.filter (fun d => d.isDir && !pyStartsWith d.name ".")).map (·.name)) := by
          injection h with h'
          exact h'.symm
        rw [hsubj] at hs
        have hmem := (List.perm_insertionSort (fun a b => pyLe a b = true) _).mem_iff.mp hs
        rw [List.mem_map] at hmem
        obtain ⟨e, he, rfl⟩ := hmem
        have := (List.mem_filter.mp he).2
        rw [Bool.and_eq_true] at this
        simpa using this.2
  · intro hall
    have hfilter : entries.filter (fun d => d.isDir && !pyStartsWith d.name ".") = [] := by
      rw [List.filter_eq_nil_iff]
      intro e he
      cases hd : e.isDir with
      | false => simp [hd]
      | true => simp [hd, hall e he hd]
    constructor
    · rw [discover_subjects, hfilter]
      rfl
    · rfl

/-- Witness for C10: a visible directory name is returned dot-free, and an
input root holding a single hidden directory fails discovery. -/
theorem discover_subjects_skips_hidden_witness :
    pyStartsWith "sub1" "." = false ∧
    discover_subjects (some [⟨".hidden", true, ["f.nii"]⟩]) =
      .error "No subject directories found" := by
  have h := discover_subjects_skips_hidden
    (some [⟨"sub2", true, []⟩, ⟨"sub1", true, []⟩])
    ["sub1", "sub2"] [⟨".hidden", true, ["f.nii"]⟩]
  exact ⟨h.1 (by rfl) "sub1" (by decide), (h.2 (by decide)).1⟩

/-- C9 (code bug): the skull-strip executor's recorded duration is the elapsed
wall-clock seconds modulo 3600 — the hours component of `Timer.elapsed` is
dropped — so a 3661-second (1h 1m 1s) container invocation is recorded as 61
seconds, while the segmentation executor records the full elapsed seconds. -/
theorem skullStripDurationSec_drops_hours :
    (∀ t : Nat, skullStripDurationSec t = t % 3600) ∧
    (∀ t : Nat, segmentDurationSec t = t) ∧
    skullStripDurationSec 3661 = 61 ∧ segmentDurationSec 3661 = 3661 := by
  refine ⟨fun t => ?_, fun t => ?_, by decide, by decide⟩
  · have h : skullStripDurationSec t = t % 3600 / 60 * 60 + t % 60 := rfl
    rw [h]
    omega
  · have h : segmentDurationSec t = t / 3600 * 3600 + t % 3600 / 60 * 60 + t % 60 := rfl
    rw [h]
    omega

/-- Dropping header lines from well-formed artifacts keeps exactly the data
lines, and no kept line looks like a header. -/
lemma aggregateLines_eq_tails (files : List (String × List String))
    (h : ∀ a ∈ files, ∃ hdr data, a.2 = hdr :: data ∧
        pyStartsWith hdr "Subject_ID" = true ∧
        ∀ d ∈ data, pyStartsWith d "Subject_ID" = false) :
    aggregateLines files = (files.map (·.2.tail)).flatten ∧
    (aggregateLines files).countP (fun line => pyStartsWith line "Subject_ID") = 0 := by
  induction files with
  | nil => exact ⟨rfl, rfl⟩
  | cons f rest ih =>
    obtain ⟨hdr, data, hf2, hhdr, hdata⟩ := h f (by simp)
    have ihr := ih (fun a ha => h a (by simp [ha]))
    have hfilter : f.2.filter (fun line => !pyStartsWith line "Subject_ID") = data := by
      rw [hf2, List.filter_cons]
      simp only [hhdr, Bool.not_true, Bool.false_eq_true, if_false]
      exact List.filter_eq_self.mpr (fun d hd => by simp [hdata d hd])
    constructor
    · rw [aggregateLines, hfilter, ihr.1, List.map_cons, List.flatten_cons, hf2]
      rfl
    · rw [aggregateLines, List.countP_append, hfilter, ihr.2, Nat.add_zero,
        List.countP_eq_zero]
      intro d hd
      simp [hdata d hd]

/-- C8: with per-unit artifacts each consisting of a `Subject_ID` header line
followed by data lines, aggregation emits exactly one header line followed by
every artifact's data lines in sorted unit order, repeated headers dropped;
with no artifacts it returns the warning value `none` instead of failing. -/
theorem aggregate_volume_results_spec (artifacts : List (String × List String))
    (hne : artifacts ≠ [])
    (hform : ∀ a ∈ artifacts, ∃ hdr data, a.2 = hdr :: data ∧
        pyStartsWith hdr "Subject_ID" = true ∧
        ∀ d ∈ data, pyStartsWith d "Subject_ID" = false) :
    aggregate_volume_results [] = none ∧
    aggregate_volume_results artifacts =
      some (volumeResultsHeader ::
        ((List.insertionSort (fun a b => pyLe a.1 b.1 = true) artifacts).map
          (·.2.tail)).flatten) ∧
    (volumeResultsHeader ::
        ((List.insertionSort (fun a b => pyLe a.1 b.1 = true) artifacts).map
          (·.2.tail)).flatten).countP (fun line => pyStartsWith line "Subject_ID") = 1 := by
  have hsortform : ∀ a ∈ List.insertionSort (fun a b => pyLe a.1 b.1 = true) artifacts,
      ∃ hdr data, a.2 = hdr :: data ∧ pyStartsWith hdr "Subject_ID" = true ∧
        ∀ d ∈ data, pyStartsWith d "Subject_ID" = false := by
    intro a ha
    exact hform a
      ((List.perm_insertionSort (fun a b => pyLe a.1 b.1 = true) artifacts).mem_iff.mp ha)
  have hagg := aggregateLines_eq_tails _ hsortform
  refine ⟨rfl, ?_, ?_⟩
  · rw [aggregate_volume_results, if_neg (by simpa [List.isEmpty_iff] using hne), hagg.1]
  · rw [List.countP_cons, ← hagg.1, hagg.2]
    simp only [Nat.zero_add]
    rw [if_pos (by decide)]

/-- Witness for C8: three artifacts, each a header plus one data line, merge
into one header followed by the three data lines in sorted unit order. -/
theorem aggregate_volume_results_spec_witness :
    aggregate_volume_results
      [("results/subB/volume_results.txt", [volumeResultsHeader, "subB\t1\t1\t1\t3\tt"]),
       ("results/subA/volume_results.txt", [volumeResultsHeader, "subA\t2\t2\t2\t6\tt"]),
       ("results/subC/volume_results.txt", [volumeResultsHeader, "subC\t3\t3\t3\t9\tt"])] =
      some [volumeResultsHeader,
        "subA\t2\t2\t2\t6\tt", "subB\t1\t1\t1\t3\tt", "subC\t3\t3\t3\t9\tt"] := by
  have h := aggregate_volume_results_spec
    [("results/subB/volume_results.txt", [volumeResultsHeader, "subB\t1\t1\t1\t3\tt"]),
     ("results/subA/volume_results.txt", [volumeResultsHeader, "subA\t2\t2\t2\t6\tt"]),
     ("results/subC/volume_results.txt", [volumeResultsHeader, "subC\t3\t3\t3\t9\tt"])]
    (by decide)
    (by
      intro a ha
      simp only [List.mem_cons, List.not_mem_nil, or_false] at ha
      rcases ha with rfl | rfl | rfl
      · exact ⟨volumeResultsHeader, ["subB\t1\t1\t1\t3\tt"], rfl, by decide, by decide⟩
      · exact ⟨volumeResultsHeader, ["subA\t2\t2\t2\t6\tt"], rfl, by decide, by decide⟩
      · exact ⟨volumeResultsHeader, ["subC\t3\t3\t3\t9\tt"], rfl, by decide, by decide⟩)
  rw [h.2.1]
  rfl

/-- C1 counterexample: a two-unit batch in which exactly one unit succeeds has
a positive success count, yet the stage process exits with code 1, not 0. -/
theorem stageExitCode_one_success_counterexample :
    1 ≤ (runStageUnits ["sub1", "sub2"] (fun s => s == "sub1")).successCount ∧
    stageExitCode (runStageUnits ["sub1", "sub2"] (fun s => s == "sub1")) = 1 := by
  decide

/-- The stage fan-out loop records the success count and the failed-subject
list of the batch exactly. -/
lemma runStageUnits_eq (subjects : List String) (f : String → Bool) :
    runStageUnits subjects f =
      ⟨subjects.countP f, subjects.filter (fun s => !f s)⟩ := by
  suffices h : ∀ (l : List String) (st : StageRunStats),
      l.foldl
        (fun st s =>
          if f s then { st with successCount := st.successCount + 1 }
          else { st with failedSubjects := st.failedSubjects ++ [s] }) st =
      ⟨st.successCount + l.countP f, st.failedSubjects ++ l.filter (fun s => !f s)⟩ by
    rw [runStageUnits, h]
    simp
  intro l
  induction l with
  | nil => intro st; simp
  | cons a l ih =>
    intro st
    cases ha : f a with
    | true =>
      simp only [List.foldl_cons, ha, if_true, ih, List.countP_cons, ha, List.filter_cons,
        Bool.not_true, StageRunStats.mk.injEq]
      constructor
      · omega
      · simp
    | false =>
      simp only [List.foldl_cons, ha, if_false, Bool.false_eq_true, ih, List.countP_cons, ha,
        List.filter_cons, Bool.not_false, if_true, StageRunStats.mk.injEq]
      constructor
      · omega
      · simp

/-- C1 amended: the stage reports the batch's exact success count and failure
list, but its process exits 0 iff every unit succeeded — a single failed unit
already makes the stage exit 1. -/
theorem stageExitCode_zero_iff (subjects : List String) (f : String → Bool) :
    (runStageUnits subjects f).successCount = subjects.countP f ∧
    (runStageUnits subjects f).failedSubjects = subjects.filter (fun s => !f s) ∧
    (stageExitCode (runStageUnits subjects f) = 0 ↔ ∀ s ∈ subjects, f s = true) := by
  rw [runStageUnits_eq]
  refine ⟨rfl, rfl, ?_⟩
  rw [stageExitCode]
  cases hemp : (subjects.filter (fun s => !f s)).isEmpty with
  | true =>
    simp only [if_true, true_iff]
    rw [List.isEmpty_iff, List.filter_eq_nil_iff] at hemp
    intro s hs
    simpa using hemp s hs
  | false =>
    simp only [Bool.false_eq_true, if_false]
    rw [List.isEmpty_eq_false_iff_exists_mem] at hemp
    obtain ⟨s, hs⟩ := hemp
    rw [List.mem_filter] at hs
    constructor
    · intro h
      exact absurd h (by omega)
    · intro h
      have := h s hs.1
      simp [this] at hs

/-- The two ways through `orchLoop` agree with the spec-side takeWhile and
dropWhile description of fail-fast execution. -/
lemma orchLoop_eq_spec (env : OrchEnv) : ∀ l : List Nat,
    orchLoop env l = specFailFastRun env l
  | [] => rfl
  | n :: rest => by
    have ih := orchLoop_eq_spec env rest
    cases hact : stepAction env n with
    | skipped =>
      have hadv : stepAdvances env n = true := by simp [stepAdvances, hact]
      simp only [orchLoop, hact, ih, specFailFastRun, List.dropWhile_cons, hadv, if_true,
        List.takeWhile_cons, List.cons_append]
      cases rest.dropWhile (stepAdvances env) <;> simp
    | succeeded =>
      have hadv : stepAdvances env n = true := by simp [stepAdvances, hact]
      simp only [orchLoop, hact, ih, specFailFastRun, List.dropWhile_cons, hadv, if_true,
        List.takeWhile_cons, List.cons_append]
      cases rest.dropWhile (stepAdvances env) <;> simp
    | failed =>
      have hadv : stepAdvances env n = false := by simp [stepAdvances, hact]
      simp [orchLoop, hact, specFailFastRun, List.dropWhile_cons, List.takeWhile_cons, hadv]
    | interrupted =>
      have hadv : stepAdvances env n = false := by simp [stepAdvances, hact]
      simp [orchLoop, hact, specFailFastRun, List.dropWhile_cons, List.takeWhile_cons, hadv]

lemma removeRoAll_of_not_hasRo (l : List Char) (h : hasRoSeq l = false) :
    removeRoAll l = l := by
  induction l using removeRoAll.induct with
  | case1 rest ih => simp [hasRoSeq] at h
  | case2 c rest hne ih =>
    simp only [hasRoSeq, removeRoAll] at *
    rw [ih h]
  | case3 => rfl

lemma removeRoAll_append_ro (l : List Char) (h : hasRoSeq l = false) :
    removeRoAll (l ++ [':', 'r', 'o']) = l := by
  induction l using removeRoAll.induct with
  | case1 rest ih => simp [hasRoSeq] at h
  | case2 c rest hne ih =>
    simp only [hasRoSeq] at h
    have hside : ∀ r' : List Char, c = ':' →
        rest ++ [':', 'r', 'o'] = 'r' :: 'o' :: r' → False := by
      intro r' hc hr
      rcases rest with _ | ⟨c2, rest2⟩
      · simp only [List.nil_append, List.cons.injEq] at hr
        exact absurd hr.1 (by decide)
      · rcases rest2 with _ | ⟨c3, rest3⟩
        · simp only [List.cons_append, List.nil_append, List.cons.injEq] at hr
          exact absurd hr.2.1 (by decide)
        · simp only [List.cons_append, List.cons.injEq] at hr
          obtain ⟨rfl, rfl, -⟩ := hr
          exact hne rest3 hc rfl
    rw [List.cons_append]
    have hm : removeRoAll (c :: (rest ++ [':', 'r', 'o'])) =
        c :: removeRoAll (rest ++ [':', 'r', 'o']) := by
      rw [removeRoAll.eq_def]
      split
      · rename_i r' heq
        injection heq with h1 h2
        exact (hside r' h1 h2).elim
      · rename_i c' r' hx heq
        injection heq with h1 h2
        subst h1
        subst h2
        rfl
      · rename_i heq
        exact absurd heq (by simp)
    rw [hm, ih h]
  | case3 => rfl

/-- Stripping `:ro` from a raw volume string whose container path is
`:ro`-free recovers the container path. -/
lemma pyReplaceRo_rawVolume (b : VolumeBinding) (h : hasRoSeq b.container.data = false) :
    pyReplaceRo (rawVolume b).2 = b.container := by
  apply String.ext
  show removeRoAll (rawVolume b).2.data = b.container.data
  rw [rawVolume]
  cases hro : b.readOnly
  · simp only [Bool.false_eq_true, if_false, String.append_empty]
    exact removeRoAll_of_not_hasRo _ h
  · simp only [if_true, String.data_append]
    exact removeRoAll_append_ro _ h

lemma dockerVolumeArgs_eq (bindings : List VolumeBinding) :
    (bindings.map rawVolume).flatMap (fun v => ["-v", v.1 ++ ":" ++ v.2]) =
    bindings.flatMap (fun b =>
      ["-v", b.host ++ ":" ++ b.container ++ (if b.readOnly then ":ro" else "")]) := by
  induction bindings with
  | nil => rfl
  | cons b bs ih =>
    simp only [List.map_cons, List.flatMap_cons, ih]
    have hval : (rawVolume b).1 ++ ":" ++ (rawVolume b).2 =
        b.host ++ ":" ++ b.container ++ (if b.readOnly then ":ro" else "") := by
      show b.host ++ ":" ++ (b.container ++ (if b.readOnly then ":ro" else "")) = _
      rw [← String.append_assoc]
    rw [hval]

lemma bindVolumeArgs_eq (bindings : List VolumeBinding)
    (h : ∀ b ∈ bindings, hasRoSeq b.container.data = false) :
    (bindings.map rawVolume).flatMap (fun v => ["--bind", v.1 ++ ":" ++ pyReplaceRo v.2]) =
    bindings.flatMap (fun b => ["--bind", b.host ++ ":" ++ b.container]) := by
  induction bindings with
  | nil => rfl
  | cons b bs ih =>
    simp only [List.map_cons, List.flatMap_cons]
    rw [ih (fun x hx => h x (List.mem_cons_of_mem _ hx)),
      pyReplaceRo_rawVolume b (h b (List.mem_cons_self _ _))]
    rfl

/-- A truthy working-directory argument renders as its flag-value pair. -/
lemma workdirArgs_eq (flag : String) (workdir : Option String)
    (hwd : ∀ w, workdir = some w → w ≠ "") :
    srcWorkdirArgs flag workdir = specWorkdirArgs flag workdir := by
  rcases workdir with _ | w
  · rfl
  · have hf : w.data.isEmpty = false := by
      cases hcase : w.data.isEmpty
      · rfl
      · rw [List.isEmpty_iff] at hcase
        exact absurd (String.ext hcase) (hwd w rfl)
    show (if w.data.isEmpty = true then [] else [flag, w]) = [flag, w]
    rw [hf]
    rfl

/-- C3: for every invocation request whose container paths are free of
interior `:ro` markers and whose working directory is not the empty string,
the constructed command matches the per-engine translation table: docker gets
the auto-remove flag, the all-GPU flag on GPU, host:container pairs with the
read-only suffix kept, the working-directory flag after the mounts and the
bare image; apptainer/singularity get the NVIDIA flag on GPU, the
writable-tmpfs flag on scratch, the working-directory flag before the binds,
bindings with the read-only suffix stripped, and the `docker://`-prefixed
image. -/
theorem run_container_cmd_matches_table (rt : Runtime) (image : String)
    (bindings : List VolumeBinding) (gpu : Bool) (workdir : Option String) (scratch : Bool)
    (hro : ∀ b ∈ bindings, hasRoSeq b.container.data = false)
    (hwd : ∀ w, workdir = some w → w ≠ "") :
    run_container_cmd rt
      ⟨image, bindings.map rawVolume, gpu, workdir, scratch⟩ =
    specTranslatedCmd rt image bindings gpu workdir scratch := by
  cases rt with
  | docker =>
    simp only [run_container_cmd, specTranslatedCmd]
    rw [dockerVolumeArgs_eq, workdirArgs_eq "-w" workdir hwd]
    rfl
  | apptainer =>
    simp only [run_container_cmd, specTranslatedCmd]
    rw [bindVolumeArgs_eq bindings hro, workdirArgs_eq "--pwd" workdir hwd]
  | singularity =>
    simp only [run_container_cmd, specTranslatedCmd]
    rw [bindVolumeArgs_eq bindings hro, workdirArgs_eq "--pwd" workdir hwd]

/-- Witness for C3: a two-binding GPU request with workdir and scratch,
rendered for docker and for apptainer. -/
theorem run_container_cmd_matches_table_witness :
    run_container_cmd .docker
      ⟨"img", [⟨"/h/in", "/input", true⟩, ⟨"/h/out", "/output", false⟩].map rawVolume,
        true, some "/app", true⟩ =
      ["docker", "run", "--rm", "--gpus", "all", "-v", "/h/in:/input:ro",
        "-v", "/h/out:/output", "-w", "/app", "img"] ∧
    run_container_cmd .apptainer
      ⟨"img", [⟨"/h/in", "/input", true⟩, ⟨"/h/out", "/output", false⟩].map rawVolume,
        true, some "/app", true⟩ =
      ["apptainer", "run", "--nv", "--writable-tmpfs", "--pwd", "/app",
        "--bind", "/h/in:/input", "--bind", "/h/out:/output", "docker://img"] := by
  have hro : ∀ b ∈ [(⟨"/h/in", "/input", true⟩ : VolumeBinding),
      ⟨"/h/out", "/output", false⟩], hasRoSeq b.container.data = false := by
    decide
  have hwd : ∀ w : String, some "/app" = some w → w ≠ "" := by
    intro w hw
    injection hw with hw
    subst hw
    decide
  constructor
  · rw [run_container_cmd_matches_table .docker "img"
      [⟨"/h/in", "/input", true⟩, ⟨"/h/out", "/output", false⟩] true (some "/app") true
      hro hwd]
    rfl
  · rw [run_container_cmd_matches_table .apptainer "img"
      [⟨"/h/in", "/input", true⟩, ⟨"/h/out", "/output", false⟩] true (some "/app") true
      hro hwd]
    rfl

/-- C5: the orchestrator evaluates the requested steps in order up to and
including the first step that neither skips nor succeeds — no later step is
evaluated — and exits 0 when every requested step skips or succeeds, 1 when
the halting step failed, and 130 when it was interrupted. -/
theorem orchestrate_fail_fast (env : OrchEnv) (startFrom : Nat) :
    orchestrate env startFrom =
      specFailFastRun env
        (pipelineStepNumbers.filter (fun n => !decide (n < startFrom))) := by
  rw [orchestrate, orchLoop_eq_spec]

/-- C6 counterexample: discovery returns the sorted batch caseA, caseB, but
the T2-combination stage processes caseB (direct copy) before caseA (needs
combination), so the stage's processing order is not the Discoverer's sorted
order. -/
theorem combineT2Order_counterexample :
    discover_subjects (some [⟨"caseB", true, ["x"]⟩, ⟨"caseA", true, ["y"]⟩]) =
      .ok ["caseA", "caseB"] ∧
    combineT2Order ["caseA", "caseB"] sampleStage2Fs = ["caseB", "caseA"] ∧
    (["caseB", "caseA"] : List String) ≠ ["caseA", "caseB"] := by
  refine ⟨rfl, by decide, by decide⟩

/-- C6 amended: stage 2's processing order is a permutation of the
Discoverer's batch in which every direct-copy unit precedes every
combination unit, and among units of the same kind the Discoverer's sorted
order is preserved. -/
theorem combineT2Order_grouped (subjects : List String)
    (inputFs : String → Option (List Entry))
    (hsorted : subjects.Pairwise (fun a b => pyLe a b = true)) :
    (combineT2Order subjects inputFs).Perm subjects ∧
    (combineT2Order subjects inputFs).Pairwise
      (fun a b => needs_t2_combination (inputFs a) = true →
        needs_t2_combination (inputFs b) = true) ∧
    (combineT2Order subjects inputFs).Pairwise
      (fun a b =>
        needs_t2_combination (inputFs a) = needs_t2_combination (inputFs b) →
        pyLe a b = true) := by
  refine ⟨?_, ?_, ?_⟩
  · rw [combineT2Order]
    have hperm :=
      List.filter_append_perm (fun s => !needs_t2_combination (inputFs s)) subjects
    simpa only [Bool.not_not] using hperm
  · rw [combineT2Order]
    rw [List.pairwise_append]
    refine ⟨?_, ?_, ?_⟩
    · apply List.pairwise_of_forall_mem_list
      intro a ha b hb hna
      have := List.of_mem_filter ha
      rw [Bool.not_eq_true'] at this
      exact absurd hna (by simp [this])
    · apply List.pairwise_of_forall_mem_list
      intro a ha b hb hna
      have hb' := List.of_mem_filter hb
      simpa using hb'
    · intro a ha b hb hna
      have hb' := List.of_mem_filter hb
      simpa using hb'
  · rw [combineT2Order]
    rw [List.pairwise_append]
    refine ⟨?_, ?_, ?_⟩
    · exact (hsorted.filter _).imp (fun h => fun _ => h)
    · exact (hsorted.filter _).imp (fun h => fun _ => h)
    · intro a ha b hb heq
      have hfa := List.of_mem_filter ha
      rw [Bool.not_eq_true'] at hfa
      have htb := List.of_mem_filter hb
      rw [hfa, htb] at heq
      exact absurd heq (by simp)

/-- Witness for the amended C6 at the concrete two-unit batch. -/
theorem combineT2Order_grouped_witness :
    (combineT2Order ["caseA", "caseB"] sampleStage2Fs).Perm ["caseA", "caseB"] ∧
    (combineT2Order ["caseA", "caseB"] sampleStage2Fs).Pairwise
      (fun a b => needs_t2_combination (sampleStage2Fs a) = true →
        needs_t2_combination (sampleStage2Fs b) = true) ∧
    (combineT2Order ["caseA", "caseB"] sampleStage2Fs).Pairwise
      (fun a b =>
        needs_t2_combination (sampleStage2Fs a) = needs_t2_combination (sampleStage2Fs b) →
        pyLe a b = true) :=
  combineT2Order_grouped ["caseA", "caseB"] sampleStage2Fs (by decide)

/-- C7: the cheap-path decision (the analyze events) is recorded for every
unit before any image pull or container invocation appears in the trace; a
cheap-path unit is copied and never invoked, and it is counted a success
whenever its directory holds at least one NIfTI file. -/
theorem combineT2_cheap_path (subjects : List String)
    (inputFs : String → Option (List Entry)) (containerOk : String → Bool)
    (s : String) (hs : s ∈ subjects)
    (hcheap : needs_t2_combination (inputFs s) = false) :
    (combineT2Trace subjects inputFs).Pairwise
      (fun a b => (a = .pullImage ∨ ∃ u, a = .invokeContainer u) →
        ∀ u nc, b ≠ .analyze u nc) ∧
    Stage2Ev.analyze s false ∈ combineT2Trace subjects inputFs ∧
    Stage2Ev.copyUnit s ∈ combineT2Trace subjects inputFs ∧
    Stage2Ev.invokeContainer s ∉ combineT2Trace subjects inputFs ∧
    (find_nifti_files (inputFs s) ≠ [] →
      combineT2UnitSuccess inputFs containerOk s = true) := by
  have hRest : ∀ b ∈
      ((if (subjects.filter (fun s => needs_t2_combination (inputFs s))).isEmpty
        then [] else [Stage2Ev.pullImage])
        ++ ((subjects.filter (fun s => !needs_t2_combination (inputFs s))).map .copyUnit
          ++ (subjects.filter (fun s => needs_t2_combination (inputFs s))).map
              .invokeContainer)),
      ∀ u nc, b ≠ Stage2Ev.analyze u nc := by
    intro b hb u nc
    rcases List.mem_append.mp hb with hb | hb
    · split at hb
      · exact absurd hb (by simp)
      · rw [List.mem_singleton] at hb
        subst hb
        simp
    · rcases List.mem_append.mp hb with hb | hb
      · obtain ⟨x, -, rfl⟩ := List.mem_map.mp hb
        simp
      · obtain ⟨x, -, rfl⟩ := List.mem_map.mp hb
        simp
  refine ⟨?_, ?_, ?_, ?_, ?_⟩
  · rw [combineT2Trace, List.append_assoc, List.append_assoc]
    rw [List.pairwise_append]
    refine ⟨?_, ?_, ?_⟩
    · apply List.pairwise_of_forall_mem_list
      intro a ha b hb hpre
      obtain ⟨x, -, rfl⟩ := List.mem_map.mp ha
      rcases hpre with h | ⟨u, h⟩ <;> simp at h
    · exact List.pairwise_of_forall_mem_list (fun a ha b hb hpre => hRest b hb)
    · intro a ha b hb hpre
      exact hRest b hb
  · rw [combineT2Trace]
    refine List.mem_append_left _ (List.mem_append_left _ (List.mem_append_left _ ?_))
    exact List.mem_map.mpr ⟨s, hs, by rw [hcheap]⟩
  · rw [combineT2Trace]
    refine List.mem_append_left _ (List.mem_append_right _ ?_)
    exact List.mem_map.mpr ⟨s, List.mem_filter.mpr ⟨hs, by rw [hcheap]; rfl⟩, rfl⟩
  · rw [combineT2Trace]
    intro hmem
    rcases List.mem_append.mp hmem with h | h
    · rcases List.mem_append.mp h with h | h
      · rcases List.mem_append.mp h with h | h
        · obtain ⟨x, -, hx⟩ := List.mem_map.mp h
          exact absurd hx (by simp)
        · split at h
          · exact absurd h (by simp)
          · rw [List.mem_singleton] at h
            exact absurd h.symm (by simp)
      · obtain ⟨x, -, hx⟩ := List.mem_map.mp h
        exact absurd hx (by simp)
    · obtain ⟨x, hx, heq⟩ := List.mem_map.mp h
      have hxs : x = s := by
        injection heq
      subst hxs
      have := List.of_mem_filter hx
      rw [hcheap] at this
      exact absurd this (by simp)
  · intro hne
    simp only [combineT2UnitSuccess, hcheap, Bool.false_eq_true, if_false,
      decide_eq_true_eq]
    exact List.length_pos.mpr hne

/-- Witness for C7: in the concrete two-unit batch, caseB takes the cheap
path: analysed before the pull and the invocation, copied, never invoked,
and counted a success. -/
theorem combineT2_cheap_path_witness :
    (combineT2Trace ["caseA", "caseB"] sampleStage2Fs).Pairwise
      (fun a b => (a = .pullImage ∨ ∃ u, a = .invokeContainer u) →
        ∀ u nc, b ≠ .analyze u nc) ∧
    Stage2Ev.analyze "caseB" false ∈ combineT2Trace ["caseA", "caseB"] sampleStage2Fs ∧
    Stage2Ev.copyUnit "caseB" ∈ combineT2Trace ["caseA", "caseB"] sampleStage2Fs ∧
    Stage2Ev.invokeContainer "caseB" ∉ combineT2Trace ["caseA", "caseB"] sampleStage2Fs ∧
    (find_nifti_files (sampleStage2Fs "caseB") ≠ [] →
      combineT2UnitSuccess sampleStage2Fs (fun _ => true) "caseB" = true) :=
  combineT2_cheap_path ["caseA", "caseB"] sampleStage2Fs (fun _ => true) "caseB"
    (by decide) (by decide)

end TSC
